import Mathlib

/-!
# Book inventory service (`main.go`)

A shallow embedding of the handlers of `main.go`: the package-level slice
`books` becomes an explicit `List book` threaded through every handler, the
pointer `&books[i]` returned by `getBookById` becomes the index `i` (a
`Fin books.length`), and a handler's call to `c.IndentedJSON(status, value)`
becomes the `Response` it returns.  Go's `int` is the 64-bit two's-complement
integer of the usual targets (amd64, arm64): arithmetic wraps modulo `2^64`.
-/

namespace GoApi

/-! ## Go `int` -/

/-- The least value of a Go `int` (64-bit): `-2^63`. -/
def minInt : Int := -9223372036854775808

/-- The greatest value of a Go `int` (64-bit): `2^63 - 1`. -/
def maxInt : Int := 9223372036854775807

/-- Two's-complement wrap-around of an integer into the range of a Go `int`. -/
def wrapInt (z : Int) : Int :=
  (z + 9223372036854775808) % 18446744073709551616 - 9223372036854775808

/-- A value of Go type `int`: an integer in `[-2^63, 2^63 - 1]`. -/
structure GoInt where
  val : Int
  lo : minInt ≤ val
  hi : val ≤ maxInt

instance : DecidableEq GoInt := fun a b =>
  match a, b with
  | ⟨x, _, _⟩, ⟨y, _, _⟩ =>
    if h : x = y then isTrue (by subst h; rfl)
    else isFalse (fun e => h (congrArg GoInt.val e))

/-- Conversion of an arbitrary integer, wrapped into range. -/
def GoInt.ofInt (z : Int) : GoInt :=
  ⟨wrapInt z, by unfold wrapInt minInt; omega, by unfold wrapInt maxInt; omega⟩

/-- Go `x + y` on `int`. -/
def GoInt.add (x y : GoInt) : GoInt := GoInt.ofInt (x.val + y.val)

/-- Go `x - y` on `int`. -/
def GoInt.sub (x y : GoInt) : GoInt := GoInt.ofInt (x.val - y.val)

/-! ## Data model -/

/-- The struct `book`. -/
structure book where
  ID : String
  Title : String
  Author : String
  Quantity : GoInt
  deriving DecidableEq

/-- The initial value of the package variable `books`. -/
def seedBooks : List book :=
  [ { ID := "1", Title := "Book 1", Author := "Author 1", Quantity := GoInt.ofInt 2 },
    { ID := "2", Title := "Book 2", Author := "Author 2", Quantity := GoInt.ofInt 5 },
    { ID := "3", Title := "Book 3", Author := "Author 3", Quantity := GoInt.ofInt 6 } ]

/-! ## Responses -/

def StatusOK : Nat := 200
def StatusCreated : Nat := 201
def StatusBadRequest : Nat := 400
def StatusNotFound : Nat := 404

/-- The value handed to `c.IndentedJSON`: the slice of books, one book, or
the map `gin.H{"error": msg}`. -/
inductive Body where
  | bookList (bs : List book)
  | oneBook (b : book)
  | error (msg : String)
  deriving DecidableEq

/-- One call `c.IndentedJSON(status, body)`. -/
structure Response where
  status : Nat
  body : Body
  deriving DecidableEq

/-! ## Handlers -/

/-- The function `getBookById`: scan `books` in order and return a pointer to
the first element whose `ID` is `id` (here its index), or the error
`"Book not found"`. -/
def getBookById : (books : List book) → String → Except String (Fin books.length)
  | [], _ => .error "Book not found"
  | b :: bs, id =>
    if b.ID = id then .ok ⟨0, Nat.succ_pos _⟩
    else
      match getBookById bs id with
      | .ok i => .ok i.succ
      | .error e => .error e

/-- The handler `getBooks`. -/
def getBooks (books : List book) : List book × Response :=
  (books, ⟨StatusOK, .bookList books⟩)

/-- The handler `createBook`; `body` is the outcome of `c.BindJSON(&newBook)`:
`none` when it returns an error, `some newBook` otherwise.  On the error path
the handler returns without calling `c.IndentedJSON`. -/
def createBook (books : List book) (body : Option book) : List book × Option Response :=
  match body with
  | none => (books, none)
  | some newBook => (books ++ [newBook], some ⟨StatusCreated, .oneBook newBook⟩)

/-- The handler `bookById`; `id` is `c.Param("id")`. -/
def bookById (books : List book) (id : String) : List book × Response :=
  match getBookById books id with
  | .error e => (books, ⟨StatusNotFound, .error e⟩)
  | .ok i => (books, ⟨StatusOK, .oneBook (books.get i)⟩)

/-- The assignment `p.Quantity = q` through the pointer `p = &books[i]`. -/
def setQuantity (books : List book) (i : Fin books.length) (q : GoInt) : List book :=
  books.set i.val { books.get i with Quantity := q }

/-- The handler `checkoutBook`; `query` is the outcome of `c.GetQuery("id")`:
`none` when `ok` is false, `some id` when `ok` is true. -/
def checkoutBook (books : List book) (query : Option String) : List book × Response :=
  match query with
  | none => (books, ⟨StatusBadRequest, .error "Missing id"⟩)
  | some id =>
    match getBookById books id with
    | .error e => (books, ⟨StatusNotFound, .error e⟩)
    | .ok i =>
      if (books.get i).Quantity.val = 0 then
        (books, ⟨StatusBadRequest, .error "Book out of stock"⟩)
      else
        let q := (books.get i).Quantity.sub (GoInt.ofInt 1)
        (setQuantity books i q, ⟨StatusOK, .oneBook { books.get i with Quantity := q }⟩)

/-- The handler `returnBook`; `query` is the outcome of `c.GetQuery("id")`. -/
def returnBook (books : List book) (query : Option String) : List book × Response :=
  match query with
  | none => (books, ⟨StatusBadRequest, .error "Missing id"⟩)
  | some id =>
    match getBookById books id with
    | .error e => (books, ⟨StatusNotFound, .error e⟩)
    | .ok i =>
      let q := (books.get i).Quantity.add (GoInt.ofInt 1)
      (setQuantity books i q, ⟨StatusOK, .oneBook { books.get i with Quantity := q }⟩)

/-! ## Derived notions used in the statements -/

/-- The position `i` holds the first record of `books` whose `ID` is `id`. -/
def FirstMatch (books : List book) (id : String) (i : Fin books.length) : Prop :=
  (books.get i).ID = id ∧ ∀ j : Fin books.length, j < i → (books.get j).ID ≠ id

/-- A record whose `ID` repeats that of the first seeded book. -/
def dupBook : book :=
  { ID := "1", Title := "Another", Author := "Someone", Quantity := GoInt.ofInt 9 }

/-- A record whose `ID` is not among the seeded books. -/
def freshBook : book :=
  { ID := "4", Title := "Book 4", Author := "Author 4", Quantity := GoInt.ofInt 1 }

/-- An inventory whose only record holds the greatest `int`. -/
def fullBooks : List book :=
  [ { ID := "1", Title := "Book 1", Author := "Author 1", Quantity := GoInt.ofInt maxInt } ]

/-- An inventory whose only record has the empty string as `ID`. -/
def emptyIdBooks : List book :=
  [ { ID := "", Title := "Untitled", Author := "Anonymous", Quantity := GoInt.ofInt 1 } ]

/-- The inventory after `n` consecutive calls of `checkoutBook` with the
query `id`. -/
def checkoutTimes (id : String) : Nat → List book → List book
  | 0, books => books
  | n + 1, books => (checkoutBook (checkoutTimes id n books) (some id)).1

/-- Every record has a non-negative quantity. -/
def nonNegative (books : List book) : Prop := ∀ b ∈ books, 0 ≤ b.Quantity.val

instance (books : List book) : Decidable (nonNegative books) := by
  unfold nonNegative; infer_instance

/-- Every quantity lies in `[0, m]`. -/
def boundedBy (m : Int) (books : List book) : Prop :=
  ∀ b ∈ books, 0 ≤ b.Quantity.val ∧ b.Quantity.val ≤ m

instance (m : Int) (books : List book) : Decidable (boundedBy m books) := by
  unfold boundedBy; infer_instance

/-- One call of a quantity-changing handler, with the outcome of its
`c.GetQuery("id")`. -/
inductive Call where
  | checkout (query : Option String)
  | giveBack (query : Option String)

/-- The inventory after one call. -/
def step (books : List book) : Call → List book
  | .checkout query => (checkoutBook books query).1
  | .giveBack query => (returnBook books query).1

/-- The inventory after a sequence of calls, served one after the other. -/
def run (books : List book) (calls : List Call) : List book :=
  calls.foldl step books

/-! ## Lookup lemmas -/

theorem getBookById_ok {books : List book} {id : String} {i : Fin books.length}
    (h : getBookById books id = .ok i) :
    (books.get i).ID = id ∧ ∀ j : Fin books.length, j < i → (books.get j).ID ≠ id := by
  induction books with
  | nil => exact i.elim0
  | cons b bs ih =>
    unfold getBookById at h
    by_cases hb : b.ID = id
    · rw [if_pos hb] at h
      injection h with h
      subst h
      refine ⟨hb, ?_⟩
      intro j hj
      exact absurd hj (Nat.not_lt_zero _)
    · rw [if_neg hb] at h
      cases hrec : getBookById bs id with
      | error e => rw [hrec] at h; cases h
      | ok k =>
        rw [hrec] at h
        injection h with h
        subst h
        obtain ⟨h1, h2⟩ := ih hrec
        refine ⟨by simpa using h1, ?_⟩
        rintro ⟨j, hj⟩ hlt
        cases j with
        | zero => simpa using hb
        | succ j =>
          have := h2 ⟨j, Nat.lt_of_succ_lt_succ hj⟩ (by
            simp only [Fin.lt_def, Fin.val_succ] at hlt ⊢
            omega)
          simpa using this

theorem getBookById_error {books : List book} {id e : String}
    (h : getBookById books id = .error e) :
    e = "Book not found" ∧ ∀ b ∈ books, b.ID ≠ id := by
  induction books with
  | nil =>
    unfold getBookById at h
    injection h with h
    exact ⟨h.symm, by simp⟩
  | cons b bs ih =>
    unfold getBookById at h
    by_cases hb : b.ID = id
    · rw [if_pos hb] at h; cases h
    · rw [if_neg hb] at h
      cases hrec : getBookById bs id with
      | ok k => rw [hrec] at h; cases h
      | error e2 =>
        rw [hrec] at h
        injection h with h
        subst h
        obtain ⟨h1, h2⟩ := ih hrec
        refine ⟨h1, ?_⟩
        intro x hx
        rcases List.mem_cons.mp hx with rfl | hx
        · exact hb
        · exact h2 x hx

theorem getBookById_of_firstMatch {books : List book} {id : String} {i : Fin books.length}
    (h : FirstMatch books id i) : getBookById books id = .ok i := by
  cases hres : getBookById books id with
  | error e =>
    exact absurd h.1 ((getBookById_error hres).2 _ (List.get_mem books i.val i.isLt))
  | ok k =>
    obtain ⟨hk1, hk2⟩ := getBookById_ok hres
    rcases lt_trichotomy k i with hlt | heq | hgt
    · exact absurd hk1 (h.2 k hlt)
    · rw [heq]
    · exact absurd h.1 (hk2 i hgt)

theorem getBookById_of_not_mem {books : List book} {id : String}
    (h : ∀ b ∈ books, b.ID ≠ id) : getBookById books id = .error "Book not found" := by
  cases hres : getBookById books id with
  | error e => rw [(getBookById_error hres).1]
  | ok k =>
    exact absurd (getBookById_ok hres).1 (h _ (List.get_mem books k.val k.isLt))

/-! ## In-place update lemmas -/

theorem setQuantity_length (books : List book) (i : Fin books.length) (q : GoInt) :
    (setQuantity books i q).length = books.length := by
  simp [setQuantity]

theorem setQuantity_getElem? (books : List book) (i : Fin books.length) (q : GoInt) (j : Nat) :
    (setQuantity books i q)[j]? =
      if j = i.val then some { books.get i with Quantity := q } else books[j]? := by
  unfold setQuantity
  by_cases h : j = i.val
  · subst h
    simp
  · rw [if_neg h]
    exact List.getElem?_set_ne (fun e => h e.symm)

theorem setQuantity_get (books : List book) (i : Fin books.length) (q : GoInt)
    (j : Fin (setQuantity books i q).length) :
    (setQuantity books i q).get j =
      if j.val = i.val then { books.get i with Quantity := q }
      else books.get (j.cast (setQuantity_length books i q)) := by
  have h := setQuantity_getElem? books i q j.val
  have hj : j.val < books.length := (setQuantity_length books i q) ▸ j.isLt
  rw [List.getElem?_eq_getElem j.isLt] at h
  by_cases e : j.val = i.val
  · rw [if_pos e] at h ⊢
    simpa using h
  · rw [if_neg e] at h ⊢
    rw [List.getElem?_eq_getElem hj] at h
    simpa using h

theorem setQuantity_get_ID (books : List book) (i : Fin books.length) (q : GoInt)
    (j : Fin (setQuantity books i q).length) :
    ((setQuantity books i q).get j).ID =
      (books.get (j.cast (setQuantity_length books i q))).ID := by
  rw [setQuantity_get]
  by_cases e : j.val = i.val
  · rw [if_pos e]
    have : j.cast (setQuantity_length books i q) = i := Fin.ext e
    rw [this]
  · rw [if_neg e]

/-- Overwriting a quantity does not move the first match of any id. -/
theorem getBookById_setQuantity {books : List book} {id : String} {i : Fin books.length}
    (h : getBookById books id = .ok i) (k : Fin books.length) (q : GoInt) :
    getBookById (setQuantity books k q) id =
      .ok (i.cast (setQuantity_length books k q).symm) := by
  apply getBookById_of_firstMatch
  obtain ⟨h1, h2⟩ := getBookById_ok h
  refine ⟨?_, ?_⟩
  · rw [setQuantity_get_ID]
    exact h1
  · intro j hj
    rw [setQuantity_get_ID]
    exact h2 _ hj

/-- After `p.Quantity = q` through the pointer found for `id`, looking `id`
up again yields the updated record. -/
theorem bookById_setQuantity {books : List book} {id : String} {i : Fin books.length}
    (h : getBookById books id = .ok i) (q : GoInt) :
    bookById (setQuantity books i q) id =
      (setQuantity books i q, ⟨StatusOK, .oneBook { books.get i with Quantity := q }⟩) := by
  unfold bookById
  rw [getBookById_setQuantity h i q]
  simp only [setQuantity_get, Fin.coe_cast, if_true]

/-! ## Arithmetic on `int` -/

theorem GoInt.sub_one_val (q : GoInt) (h : minInt < q.val) :
    (q.sub (GoInt.ofInt 1)).val = q.val - 1 := by
  have h2 := q.hi
  unfold minInt at h
  unfold maxInt at h2
  show wrapInt (q.val - wrapInt 1) = q.val - 1
  unfold wrapInt
  omega

theorem GoInt.add_one_val (q : GoInt) :
    (q.add (GoInt.ofInt 1)).val = if q.val = maxInt then minInt else q.val + 1 := by
  have h1 := q.lo
  have h2 := q.hi
  unfold minInt at h1
  unfold maxInt at h2
  show wrapInt (q.val + wrapInt 1) = _
  unfold wrapInt maxInt minInt
  split <;> omega

/-! ## Handler lemmas -/

theorem checkoutBook_found {books : List book} {id : String} {i : Fin books.length}
    (h : getBookById books id = .ok i) (hq : (books.get i).Quantity.val ≠ 0) :
    checkoutBook books (some id) =
      (setQuantity books i ((books.get i).Quantity.sub (GoInt.ofInt 1)),
        ⟨StatusOK, .oneBook { books.get i with
          Quantity := (books.get i).Quantity.sub (GoInt.ofInt 1) }⟩) := by
  simp only [checkoutBook, h, if_neg hq]

theorem checkoutBook_out_of_stock {books : List book} {id : String} {i : Fin books.length}
    (h : getBookById books id = .ok i) (hq : (books.get i).Quantity.val = 0) :
    checkoutBook books (some id) =
      (books, ⟨StatusBadRequest, .error "Book out of stock"⟩) := by
  simp only [checkoutBook, h, if_pos hq]

theorem returnBook_found {books : List book} {id : String} {i : Fin books.length}
    (h : getBookById books id = .ok i) :
    returnBook books (some id) =
      (setQuantity books i ((books.get i).Quantity.add (GoInt.ofInt 1)),
        ⟨StatusOK, .oneBook { books.get i with
          Quantity := (books.get i).Quantity.add (GoInt.ofInt 1) }⟩) := by
  simp only [returnBook, h]

/-! ## Lookup by id -/

/-- C1: if some record of the inventory has the requested id, `getBookById`
succeeds with the first record in scan order whose id equals the request (so
the returned id is the requested one) and `bookById` answers 200 with it; if
no record has that id, `getBookById` fails with the error "Book not found"
and `bookById` answers 404 with that message. -/
theorem getBookById_first_match_or_not_found (books : List book) (id : String) :
    ((∃ b ∈ books, b.ID = id) →
      ∃ i : Fin books.length, getBookById books id = .ok i ∧ (books.get i).ID = id ∧
        (∀ j : Fin books.length, j < i → (books.get j).ID ≠ id) ∧
        bookById books id = (books, ⟨StatusOK, .oneBook (books.get i)⟩)) ∧
    ((¬ ∃ b ∈ books, b.ID = id) →
      getBookById books id = .error "Book not found" ∧
      bookById books id = (books, ⟨StatusNotFound, .error "Book not found"⟩)) := by
  constructor
  · rintro ⟨b, hb, hid⟩
    cases hres : getBookById books id with
    | error e => exact absurd hid ((getBookById_error hres).2 b hb)
    | ok i =>
      obtain ⟨h1, h2⟩ := getBookById_ok hres
      refine ⟨i, rfl, h1, h2, ?_⟩
      simp only [bookById, hres]
  · intro hno
    have h : getBookById books id = .error "Book not found" :=
      getBookById_of_not_mem (fun b hb hid => hno ⟨b, hb, hid⟩)
    refine ⟨h, ?_⟩
    simp only [bookById, h]

theorem getBookById_first_match_or_not_found_witness :
    ((∃ b ∈ seedBooks ++ [dupBook], b.ID = "1") ∧
      ∃ i : Fin (seedBooks ++ [dupBook]).length,
        getBookById (seedBooks ++ [dupBook]) "1" = .ok i ∧
        ((seedBooks ++ [dupBook]).get i).ID = "1" ∧
        (∀ j : Fin (seedBooks ++ [dupBook]).length, j < i →
          ((seedBooks ++ [dupBook]).get j).ID ≠ "1") ∧
        bookById (seedBooks ++ [dupBook]) "1" =
          (seedBooks ++ [dupBook], ⟨StatusOK, .oneBook ((seedBooks ++ [dupBook]).get i)⟩)) ∧
    ((¬ ∃ b ∈ seedBooks, b.ID = "9") ∧
      getBookById seedBooks "9" = .error "Book not found" ∧
      bookById seedBooks "9" = (seedBooks, ⟨StatusNotFound, .error "Book not found"⟩)) :=
  ⟨⟨by decide, (getBookById_first_match_or_not_found (seedBooks ++ [dupBook]) "1").1 (by decide)⟩,
   ⟨by decide, (getBookById_first_match_or_not_found seedBooks "9").2 (by decide)⟩⟩

/-! ## Create -/

/-- C7: for every inventory `L` and every record `r`, whatever its fields,
a create whose body decodes to `r` answers 201 carrying `r` and leaves the
list equal to `L` followed by `r`: `getBooks` then answers 200 with
`L ++ [r]`, the length has grown by exactly one, every earlier position holds
the record it held before, and the last element is `r`. -/
theorem createBook_appends (books : List book) (r : book) :
    createBook books (some r) = (books ++ [r], some ⟨StatusCreated, .oneBook r⟩) ∧
    getBooks (createBook books (some r)).1 =
      (books ++ [r], ⟨StatusOK, .bookList (books ++ [r])⟩) ∧
    (createBook books (some r)).1.length = books.length + 1 ∧
    (∀ j : Fin books.length, (createBook books (some r)).1[j.val]? = some (books.get j)) ∧
    (createBook books (some r)).1.getLast? = some r := by
  refine ⟨rfl, rfl, ?_, ?_, ?_⟩
  · simp [createBook]
  · intro j
    simp only [createBook]
    rw [List.getElem?_append_left j.isLt, List.getElem?_eq_getElem j.isLt]
    rfl
  · simp [createBook]

/-- C2 fails when the inventory already holds a record with the new id: after
creating `dupBook` (id "1") on the seeded inventory, looking up "1" answers
the seeded "Book 1", not the record just created. -/
theorem create_then_find_duplicate_id :
    (bookById (createBook seedBooks (some dupBook)).1 dupBook.ID).2 =
      ⟨StatusOK, .oneBook
        { ID := "1", Title := "Book 1", Author := "Author 1", Quantity := GoInt.ofInt 2 }⟩ ∧
    (bookById (createBook seedBooks (some dupBook)).1 dupBook.ID).2 ≠
      ⟨StatusOK, .oneBook dupBook⟩ := by
  decide

/-- C2 (amended): for every inventory holding no record with the id of `r`,
create of `r` followed by a lookup of that id answers 200 with a record equal
to `r`. -/
theorem create_then_find_fresh_id (books : List book) (r : book)
    (hfresh : ∀ b ∈ books, b.ID ≠ r.ID) :
    bookById (createBook books (some r)).1 r.ID =
      ((createBook books (some r)).1, ⟨StatusOK, .oneBook r⟩) := by
  show bookById (books ++ [r]) r.ID = (books ++ [r], ⟨StatusOK, .oneBook r⟩)
  have hlen : books.length < (books ++ [r]).length := by simp
  have hfm : FirstMatch (books ++ [r]) r.ID ⟨books.length, hlen⟩ := by
    constructor
    · simp
    · rintro ⟨j, hj⟩ hlt
      have hj2 : j < books.length := hlt
      have : (books ++ [r]).get ⟨j, hj⟩ = books.get ⟨j, hj2⟩ := by
        simp [List.getElem_append_left hj2]
      rw [this]
      exact hfresh _ (List.get_mem books j hj2)
  unfold bookById
  rw [getBookById_of_firstMatch hfm]
  simp

theorem create_then_find_fresh_id_witness :
    (∀ b ∈ seedBooks, b.ID ≠ freshBook.ID) ∧
    bookById (createBook seedBooks (some freshBook)).1 freshBook.ID =
      ((createBook seedBooks (some freshBook)).1, ⟨StatusOK, .oneBook freshBook⟩) :=
  ⟨by decide, create_then_find_fresh_id seedBooks freshBook (by decide)⟩

/-! ## Checkout and return of one copy -/

theorem checkoutBook_of_pos {books : List book} {id : String} {i : Fin books.length}
    (h : getBookById books id = .ok i) (hq : 0 < (books.get i).Quantity.val) :
    ∃ (books' : List book) (b' : book),
      checkoutBook books (some id) = (books', ⟨StatusOK, .oneBook b'⟩) ∧
      b'.Quantity.val = (books.get i).Quantity.val - 1 ∧
      b'.ID = (books.get i).ID ∧ b'.Title = (books.get i).Title ∧
      b'.Author = (books.get i).Author ∧
      bookById books' id = (books', ⟨StatusOK, .oneBook b'⟩) := by
  have hlo : minInt < (books.get i).Quantity.val := by
    unfold minInt; omega
  refine ⟨_, _, checkoutBook_found h (by omega), ?_, rfl, rfl, rfl, bookById_setQuantity h _⟩
  exact GoInt.sub_one_val _ hlo

/-- C3: when the first record matching `id` has quantity `q > 0`, checkout
answers 200 with a record whose quantity is `q - 1` and whose id, title and
author are those of the matched record, and a following lookup of `id`
answers 200 with that same record. -/
theorem checkoutBook_decrements (books : List book) (id : String) (i : Fin books.length)
    (h : getBookById books id = .ok i) (hq : 0 < (books.get i).Quantity.val) :
    ∃ (books' : List book) (b' : book),
      checkoutBook books (some id) = (books', ⟨StatusOK, .oneBook b'⟩) ∧
      b'.Quantity.val = (books.get i).Quantity.val - 1 ∧
      b'.ID = (books.get i).ID ∧ b'.Title = (books.get i).Title ∧
      b'.Author = (books.get i).Author ∧
      bookById books' id = (books', ⟨StatusOK, .oneBook b'⟩) :=
  checkoutBook_of_pos h hq

theorem checkoutBook_decrements_witness :
    getBookById seedBooks "2" = .ok ⟨1, by decide⟩ ∧
    0 < (seedBooks.get ⟨1, by decide⟩).Quantity.val ∧
    ∃ (books' : List book) (b' : book),
      checkoutBook seedBooks (some "2") = (books', ⟨StatusOK, .oneBook b'⟩) ∧
      b'.Quantity.val = (seedBooks.get ⟨1, by decide⟩).Quantity.val - 1 ∧
      b'.ID = (seedBooks.get ⟨1, by decide⟩).ID ∧
      b'.Title = (seedBooks.get ⟨1, by decide⟩).Title ∧
      b'.Author = (seedBooks.get ⟨1, by decide⟩).Author ∧
      bookById books' "2" = (books', ⟨StatusOK, .oneBook b'⟩) :=
  ⟨rfl, by decide,
    checkoutBook_decrements seedBooks "2" ⟨1, by decide⟩ rfl (by decide)⟩

/-- C5 fails at the greatest `int`: on an inventory whose record "1" has
quantity `2^63 - 1`, return answers 200 with quantity `-2^63`, not
`2^63`. -/
theorem returnBook_wraps_at_maxInt :
    (fullBooks.map (fun b => b.Quantity.val)) = [9223372036854775807] ∧
    (returnBook fullBooks (some "1")).2 =
      ⟨StatusOK, .oneBook
        { ID := "1", Title := "Book 1", Author := "Author 1", Quantity := GoInt.ofInt minInt }⟩ ∧
    (GoInt.ofInt minInt).val = -9223372036854775808 ∧
    ((returnBook fullBooks (some "1")).1.map (fun b => b.Quantity.val)) =
      [-9223372036854775808] ∧
    ((returnBook fullBooks (some "1")).1.map (fun b => b.Quantity.val)) ≠
      [9223372036854775807 + 1] := by
  decide

/-- C5 (amended): when the first record matching `id` has quantity `q`,
return answers 200 with a record whose id, title and author are unchanged and
whose quantity is `q + 1` if `q < 2^63 - 1`, and `-2^63` if `q = 2^63 - 1`
(the addition wraps in the 64-bit `int`); a following lookup of `id` answers
200 with that same record. -/
theorem returnBook_increments_wrapping (books : List book) (id : String)
    (i : Fin books.length) (h : getBookById books id = .ok i) :
    ∃ (books' : List book) (b' : book),
      returnBook books (some id) = (books', ⟨StatusOK, .oneBook b'⟩) ∧
      b'.Quantity.val =
        (if (books.get i).Quantity.val = maxInt then minInt
         else (books.get i).Quantity.val + 1) ∧
      b'.ID = (books.get i).ID ∧ b'.Title = (books.get i).Title ∧
      b'.Author = (books.get i).Author ∧
      bookById books' id = (books', ⟨StatusOK, .oneBook b'⟩) :=
  ⟨_, _, returnBook_found h, GoInt.add_one_val _, rfl, rfl, rfl, bookById_setQuantity h _⟩

theorem returnBook_increments_wrapping_witness :
    getBookById seedBooks "2" = .ok ⟨1, by decide⟩ ∧
    ∃ (books' : List book) (b' : book),
      returnBook seedBooks (some "2") = (books', ⟨StatusOK, .oneBook b'⟩) ∧
      b'.Quantity.val =
        (if (seedBooks.get ⟨1, by decide⟩).Quantity.val = maxInt then minInt
         else (seedBooks.get ⟨1, by decide⟩).Quantity.val + 1) ∧
      b'.ID = (seedBooks.get ⟨1, by decide⟩).ID ∧
      b'.Title = (seedBooks.get ⟨1, by decide⟩).Title ∧
      b'.Author = (seedBooks.get ⟨1, by decide⟩).Author ∧
      bookById books' "2" = (books', ⟨StatusOK, .oneBook b'⟩) :=
  ⟨rfl, returnBook_increments_wrapping seedBooks "2" ⟨1, by decide⟩ rfl⟩

/-! ## Repeated checkout -/

theorem bookById_ok_inv {books books' : List book} {id : String} {b : book}
    (h : bookById books id = (books', ⟨StatusOK, .oneBook b⟩)) :
    ∃ i : Fin books.length, getBookById books id = .ok i ∧ books.get i = b := by
  unfold bookById at h
  cases hres : getBookById books id with
  | error e =>
    rw [hres] at h
    simp [StatusNotFound, StatusOK] at h
  | ok i =>
    rw [hres] at h
    refine ⟨i, rfl, ?_⟩
    injection h with _ h2
    injection h2 with _ h3
    injection h3

/-- After `k ≤ n` checkouts of a record that started with quantity `n`, the
record is still the first match and holds quantity `n - k`. -/
theorem checkoutTimes_lookup {books : List book} {id : String} {i : Fin books.length}
    {n : Nat} (h : getBookById books id = .ok i) (hq : (books.get i).Quantity.val = n) :
    ∀ k, k ≤ n → ∃ bk : book,
      bookById (checkoutTimes id k books) id =
        (checkoutTimes id k books, ⟨StatusOK, .oneBook bk⟩) ∧
      bk.Quantity.val = (n : Int) - k ∧ bk.ID = (books.get i).ID ∧
      bk.Title = (books.get i).Title ∧ bk.Author = (books.get i).Author := by
  intro k
  induction k with
  | zero =>
    intro _
    refine ⟨books.get i, ?_, by simpa using hq, rfl, rfl, rfl⟩
    simp only [checkoutTimes, bookById, h]
  | succ k ih =>
    intro hk
    obtain ⟨bk, hb, hval, hid, htitle, hauthor⟩ := ih (by omega)
    obtain ⟨j, hj, hget⟩ := bookById_ok_inv hb
    have hpos : 0 < ((checkoutTimes id k books).get j).Quantity.val := by
      rw [hget, hval]; omega
    obtain ⟨books', b', hco, hq', hid', htitle', hauthor', hlook⟩ :=
      checkoutBook_of_pos hj hpos
    have hstate : checkoutTimes id (k + 1) books = books' := by
      simp only [checkoutTimes, hco]
    rw [hstate]
    refine ⟨b', hlook, ?_, ?_, ?_, ?_⟩
    · rw [hq', hget, hval]; push_cast; omega
    · rw [hid', hget, hid]
    · rw [htitle', hget, htitle]
    · rw [hauthor', hget, hauthor]

/-- C4: when the first record matching `id` has quantity `n ≥ 0`, each of the
first `n` consecutive checkouts answers 200 (the `k+1`-th one with quantity
`n - (k+1)`), after them a lookup shows quantity 0, and the next checkout
answers 400 "Book out of stock" and leaves the inventory, hence the quantity
0, as it was.  On the seeded inventory, two checkouts of "1" succeed, reaching
quantity 0, and the third answers 400 "Book out of stock". -/
theorem checkoutBook_until_out_of_stock (books : List book) (id : String)
    (i : Fin books.length) (n : Nat) (h : getBookById books id = .ok i)
    (hq : (books.get i).Quantity.val = n) :
    (∀ k, k < n → ∃ b' : book,
      (checkoutBook (checkoutTimes id k books) (some id)).2 = ⟨StatusOK, .oneBook b'⟩ ∧
      b'.Quantity.val = (n : Int) - (k + 1) ∧ b'.ID = (books.get i).ID ∧
      b'.Title = (books.get i).Title ∧ b'.Author = (books.get i).Author) ∧
    (∃ b0 : book,
      bookById (checkoutTimes id n books) id =
        (checkoutTimes id n books, ⟨StatusOK, .oneBook b0⟩) ∧
      b0.Quantity.val = 0) ∧
    checkoutBook (checkoutTimes id n books) (some id) =
      (checkoutTimes id n books, ⟨StatusBadRequest, .error "Book out of stock"⟩) ∧
    checkoutTimes id (n + 1) books = checkoutTimes id n books ∧
    ((checkoutBook seedBooks (some "1")).2.status = StatusOK ∧
      (checkoutBook (checkoutTimes "1" 1 seedBooks) (some "1")).2 =
        ⟨StatusOK, .oneBook
          { ID := "1", Title := "Book 1", Author := "Author 1", Quantity := GoInt.ofInt 0 }⟩ ∧
      checkoutBook (checkoutTimes "1" 2 seedBooks) (some "1") =
        (checkoutTimes "1" 2 seedBooks, ⟨StatusBadRequest, .error "Book out of stock"⟩)) := by
  have hend : checkoutBook (checkoutTimes id n books) (some id) =
      (checkoutTimes id n books, ⟨StatusBadRequest, .error "Book out of stock"⟩) := by
    obtain ⟨bn, hb, hval, _⟩ := checkoutTimes_lookup h hq n (Nat.le_refl n)
    obtain ⟨j, hj, hget⟩ := bookById_ok_inv hb
    exact checkoutBook_out_of_stock hj (by rw [hget, hval]; omega)
  refine ⟨?_, ?_, hend, ?_, by decide⟩
  · intro k hk
    obtain ⟨bk, hb, hval, hid, htitle, hauthor⟩ := checkoutTimes_lookup h hq k (by omega)
    obtain ⟨j, hj, hget⟩ := bookById_ok_inv hb
    have hpos : 0 < ((checkoutTimes id k books).get j).Quantity.val := by
      rw [hget, hval]; omega
    obtain ⟨books', b', hco, hq', hid', htitle', hauthor', _⟩ :=
      checkoutBook_of_pos hj hpos
    refine ⟨b', by rw [hco], ?_, ?_, ?_, ?_⟩
    · rw [hq', hget, hval]; omega
    · rw [hid', hget, hid]
    · rw [htitle', hget, htitle]
    · rw [hauthor', hget, hauthor]
  · obtain ⟨bn, hb, hval, _⟩ := checkoutTimes_lookup h hq n (Nat.le_refl n)
    exact ⟨bn, hb, by rw [hval]; omega⟩
  · simp only [checkoutTimes, hend]

theorem checkoutBook_until_out_of_stock_witness :
    getBookById seedBooks "2" = .ok ⟨1, by decide⟩ ∧
    (seedBooks.get ⟨1, by decide⟩).Quantity.val = (5 : Nat) ∧
    (checkoutBook (checkoutTimes "2" 4 seedBooks) (some "2")).2.status = StatusOK ∧
    checkoutBook (checkoutTimes "2" 5 seedBooks) (some "2") =
      (checkoutTimes "2" 5 seedBooks, ⟨StatusBadRequest, .error "Book out of stock"⟩) :=
  ⟨rfl, by decide, by decide,
    (checkoutBook_until_out_of_stock seedBooks "2" ⟨1, by decide⟩ 5 rfl (by decide)).2.2.1⟩

/-! ## The query parameter -/

/-- When `c.GetQuery("id")` reports the parameter absent, both handlers
answer 400 "Missing id" and leave the inventory alone. -/
theorem missing_id_rejected (books : List book) :
    checkoutBook books none = (books, ⟨StatusBadRequest, .error "Missing id"⟩) ∧
    returnBook books none = (books, ⟨StatusBadRequest, .error "Missing id"⟩) :=
  ⟨rfl, rfl⟩

/-- C6 at the failing input: a query `?id=` that is present with an empty
value (`c.GetQuery` gives `("", true)`) is not answered with "Missing id".
On the seeded inventory both handlers go on to the lookup and answer 404
"Book not found"; on an inventory holding a record whose id is the empty
string, checkout answers 200 and lowers its quantity from 1 to 0 and return
answers 200 and raises it from 1 to 2. -/
theorem empty_id_query_reaches_lookup :
    checkoutBook seedBooks (some "") =
      (seedBooks, ⟨StatusNotFound, .error "Book not found"⟩) ∧
    returnBook seedBooks (some "") =
      (seedBooks, ⟨StatusNotFound, .error "Book not found"⟩) ∧
    (emptyIdBooks.map (fun b => b.Quantity.val)) = [1] ∧
    (checkoutBook emptyIdBooks (some "")).2.status = StatusOK ∧
    ((checkoutBook emptyIdBooks (some "")).1.map (fun b => b.Quantity.val)) = [0] ∧
    (returnBook emptyIdBooks (some "")).2.status = StatusOK ∧
    ((returnBook emptyIdBooks (some "")).1.map (fun b => b.Quantity.val)) = [2] := by
  decide

/-! ## Frame -/

theorem setQuantity_frame (books : List book) (id : String) (i : Fin books.length)
    (hi : getBookById books id = .ok i) (q : GoInt) (j : Nat) :
    (setQuantity books i q)[j]? = books[j]? ∨
    ∃ (k : Fin books.length) (b' : book),
      getBookById books id = .ok k ∧ k.val = j ∧
      (setQuantity books i q)[j]? = some b' ∧ b'.ID = (books.get k).ID ∧
      b'.Title = (books.get k).Title ∧ b'.Author = (books.get k).Author := by
  rw [setQuantity_getElem?]
  by_cases e : j = i.val
  · right
    exact ⟨i, _, hi, e.symm, if_pos e, rfl, rfl, rfl⟩
  · left
    exact if_neg e

/-- C9: for every inventory and every query, after checkout and after return
the list has the same length, and every position either holds exactly the
record it held before or is the position of the first record matching the
id, where the new record has the same id, title and author as the old one.
So the order is kept and every other record, later records with the same id
included, is unchanged. -/
theorem quantity_update_frame (books : List book) (query : Option String) :
    ((checkoutBook books query).1.length = books.length ∧
      ∀ j : Nat, (checkoutBook books query).1[j]? = books[j]? ∨
        ∃ (id : String) (i : Fin books.length) (b' : book),
          query = some id ∧ getBookById books id = .ok i ∧ i.val = j ∧
          (checkoutBook books query).1[j]? = some b' ∧ b'.ID = (books.get i).ID ∧
          b'.Title = (books.get i).Title ∧ b'.Author = (books.get i).Author) ∧
    ((returnBook books query).1.length = books.length ∧
      ∀ j : Nat, (returnBook books query).1[j]? = books[j]? ∨
        ∃ (id : String) (i : Fin books.length) (b' : book),
          query = some id ∧ getBookById books id = .ok i ∧ i.val = j ∧
          (returnBook books query).1[j]? = some b' ∧ b'.ID = (books.get i).ID ∧
          b'.Title = (books.get i).Title ∧ b'.Author = (books.get i).Author) := by
  cases query with
  | none => exact ⟨⟨rfl, fun j => Or.inl rfl⟩, ⟨rfl, fun j => Or.inl rfl⟩⟩
  | some id =>
    cases hres : getBookById books id with
    | error e =>
      have h1 : (checkoutBook books (some id)).1 = books := by
        simp only [checkoutBook, hres]
      have h2 : (returnBook books (some id)).1 = books := by
        simp only [returnBook, hres]
      rw [h1, h2]
      exact ⟨⟨rfl, fun j => Or.inl rfl⟩, ⟨rfl, fun j => Or.inl rfl⟩⟩
    | ok i =>
      constructor
      · by_cases hq : (books.get i).Quantity.val = 0
        · rw [checkoutBook_out_of_stock hres hq]
          exact ⟨rfl, fun j => Or.inl rfl⟩
        · rw [checkoutBook_found hres hq]
          refine ⟨setQuantity_length _ _ _, fun j => ?_⟩
          rcases setQuantity_frame books id i hres _ j with h | ⟨k, b', h⟩
          · exact Or.inl h
          · exact Or.inr ⟨id, k, b', rfl, h⟩
      · rw [returnBook_found hres]
        refine ⟨setQuantity_length _ _ _, fun j => ?_⟩
        rcases setQuantity_frame books id i hres _ j with h | ⟨k, b', h⟩
        · exact Or.inl h
        · exact Or.inr ⟨id, k, b', rfl, h⟩

/-! ## Failing calls -/

/-- C10: every failing call leaves the inventory as it was.  A checkout or a
return whose answer is not 200 (400 "Missing id", 404 "Book not found", 400
"Book out of stock") returns the inventory it was given, a lookup never
changes the inventory, whether it answers 404 or 200, and a create whose body
does not decode returns the inventory it was given and writes no response. -/
theorem failed_calls_leave_inventory (books : List book) (query : Option String)
    (id : String) :
    ((checkoutBook books query).2.status ≠ StatusOK → (checkoutBook books query).1 = books) ∧
    ((checkoutBook books query).2.status ≠ StatusOK →
      (checkoutBook books query).2 = ⟨StatusBadRequest, .error "Missing id"⟩ ∨
      (checkoutBook books query).2 = ⟨StatusNotFound, .error "Book not found"⟩ ∨
      (checkoutBook books query).2 = ⟨StatusBadRequest, .error "Book out of stock"⟩) ∧
    ((returnBook books query).2.status ≠ StatusOK → (returnBook books query).1 = books) ∧
    ((returnBook books query).2.status ≠ StatusOK →
      (returnBook books query).2 = ⟨StatusBadRequest, .error "Missing id"⟩ ∨
      (returnBook books query).2 = ⟨StatusNotFound, .error "Book not found"⟩) ∧
    (bookById books id).1 = books ∧
    createBook books none = (books, none) ∧
    getBooks books = (books, ⟨StatusOK, .bookList books⟩) := by
  have hlook : (bookById books id).1 = books := by
    unfold bookById
    cases getBookById books id <;> rfl
  cases query with
  | none =>
    exact ⟨fun _ => rfl, fun _ => Or.inl rfl, fun _ => rfl, fun _ => Or.inl rfl,
      hlook, rfl, rfl⟩
  | some qid =>
    cases hres : getBookById books qid with
    | error e =>
      obtain ⟨he, _⟩ := getBookById_error hres
      subst he
      have h1 : checkoutBook books (some qid) =
          (books, ⟨StatusNotFound, .error "Book not found"⟩) := by
        simp only [checkoutBook, hres]
      have h2 : returnBook books (some qid) =
          (books, ⟨StatusNotFound, .error "Book not found"⟩) := by
        simp only [returnBook, hres]
      rw [h1, h2]
      exact ⟨fun _ => rfl, fun _ => Or.inr (Or.inl rfl), fun _ => rfl,
        fun _ => Or.inr rfl, hlook, rfl, rfl⟩
    | ok i =>
      rw [returnBook_found hres]
      by_cases hq : (books.get i).Quantity.val = 0
      · rw [checkoutBook_out_of_stock hres hq]
        exact ⟨fun _ => rfl, fun _ => Or.inr (Or.inr rfl), fun hne => absurd rfl hne,
          fun hne => absurd rfl hne, hlook, rfl, rfl⟩
      · rw [checkoutBook_found hres hq]
        exact ⟨fun hne => absurd rfl hne, fun hne => absurd rfl hne,
          fun hne => absurd rfl hne, fun hne => absurd rfl hne, hlook, rfl, rfl⟩

theorem failed_calls_leave_inventory_witness :
    ((checkoutBook (checkoutTimes "1" 2 seedBooks) (some "1")).2.status ≠ StatusOK ∧
      (checkoutBook (checkoutTimes "1" 2 seedBooks) (some "1")).1 =
        checkoutTimes "1" 2 seedBooks) ∧
    ((returnBook seedBooks (some "9")).2.status ≠ StatusOK ∧
      (returnBook seedBooks (some "9")).1 = seedBooks) :=
  ⟨⟨by decide,
    (failed_calls_leave_inventory (checkoutTimes "1" 2 seedBooks) (some "1") "1").1
      (by decide)⟩,
   ⟨by decide, (failed_calls_leave_inventory seedBooks (some "9") "9").2.2.1 (by decide)⟩⟩

/-! ## Non-negative quantities -/

theorem get_mem_books (books : List book) (i : Fin books.length) : books.get i ∈ books :=
  List.get_mem books i.val i.isLt

theorem forall_mem_setQuantity {P : book → Prop} {books : List book}
    (i : Fin books.length) (q : GoInt) (hall : ∀ b ∈ books, P b)
    (hnew : P { books.get i with Quantity := q }) :
    ∀ b ∈ setQuantity books i q, P b := by
  intro b hb
  rcases List.mem_or_eq_of_mem_set hb with h | h
  · exact hall b h
  · rw [h]; exact hnew

theorem checkoutBook_boundedBy {m : Int} {books : List book} (hb : boundedBy m books)
    (query : Option String) : boundedBy m (checkoutBook books query).1 := by
  cases query with
  | none => exact hb
  | some id =>
    cases hres : getBookById books id with
    | error e =>
      have h1 : (checkoutBook books (some id)).1 = books := by
        simp only [checkoutBook, hres]
      rw [h1]; exact hb
    | ok i =>
      by_cases hq : (books.get i).Quantity.val = 0
      · rw [checkoutBook_out_of_stock hres hq]; exact hb
      · rw [checkoutBook_found hres hq]
        obtain ⟨h0, hm⟩ := hb _ (get_mem_books books i)
        have hval := GoInt.sub_one_val (books.get i).Quantity (by unfold minInt; omega)
        apply forall_mem_setQuantity i _ hb
        show 0 ≤ ((books.get i).Quantity.sub (GoInt.ofInt 1)).val ∧
          ((books.get i).Quantity.sub (GoInt.ofInt 1)).val ≤ m
        rw [hval]
        omega

theorem returnBook_boundedBy {m : Int} {books : List book} (hb : boundedBy m books)
    (hm : m < maxInt) (query : Option String) :
    boundedBy (m + 1) (returnBook books query).1 := by
  have hweak : boundedBy (m + 1) books := fun b h => ⟨(hb b h).1, by have := (hb b h).2; omega⟩
  cases query with
  | none => exact hweak
  | some id =>
    cases hres : getBookById books id with
    | error e =>
      have h1 : (returnBook books (some id)).1 = books := by
        simp only [returnBook, hres]
      rw [h1]; exact hweak
    | ok i =>
      rw [returnBook_found hres]
      obtain ⟨h0, hle⟩ := hb _ (get_mem_books books i)
      have hval := GoInt.add_one_val (books.get i).Quantity
      rw [if_neg (by omega)] at hval
      apply forall_mem_setQuantity i _ hweak
      show 0 ≤ ((books.get i).Quantity.add (GoInt.ofInt 1)).val ∧
        ((books.get i).Quantity.add (GoInt.ofInt 1)).val ≤ m + 1
      rw [hval]
      omega

theorem run_boundedBy (calls : List Call) :
    ∀ (books : List book) (m : Int), boundedBy m books → m + calls.length ≤ maxInt →
      boundedBy (m + calls.length) (run books calls) := by
  induction calls with
  | nil =>
    intro books m hb _
    simpa [run] using hb
  | cons c cs ih =>
    intro books m hb hlen
    have hlen2 : m + 1 + (cs.length : Int) ≤ maxInt := by
      simp only [List.length_cons, Nat.cast_add, Nat.cast_one] at hlen
      omega
    have hstep : boundedBy (m + 1) (step books c) := by
      cases c with
      | checkout query =>
        exact fun b h => ⟨(checkoutBook_boundedBy hb query b h).1,
          by have := (checkoutBook_boundedBy hb query b h).2; omega⟩
      | giveBack query =>
        exact returnBook_boundedBy hb (by omega) query
    have hrun := ih (step books c) (m + 1) hstep hlen2
    have heq : m + ((c :: cs).length : Int) = m + 1 + (cs.length : Int) := by
      simp only [List.length_cons, Nat.cast_add, Nat.cast_one]
      omega
    rw [heq]
    exact hrun

/-- C8 fails at the greatest `int`: on an inventory whose only record has
quantity `2^63 - 1`, all quantities are non-negative, and after a return of
that record its quantity is `-2^63`. -/
theorem returnBook_breaks_nonNegative :
    nonNegative fullBooks ∧ ¬ nonNegative (returnBook fullBooks (some "1")).1 := by
  decide

/-- C8 (amended): checkout preserves "every quantity is at least 0" for every
inventory and query; return preserves it whenever the first record matching
the id has a quantity below `2^63 - 1`; and every inventory reached from the
seeded one by at most `2^63 - 7` checkout and return calls satisfies it. -/
theorem nonNegative_preserved_below_maxInt :
    (∀ (books : List book) (query : Option String),
      nonNegative books → nonNegative (checkoutBook books query).1) ∧
    (∀ (books : List book) (query : Option String), nonNegative books →
      (∀ (id : String) (i : Fin books.length), query = some id →
        getBookById books id = .ok i → (books.get i).Quantity.val < maxInt) →
      nonNegative (returnBook books query).1) ∧
    (∀ calls : List Call, (calls.length : Int) ≤ 9223372036854775807 - 6 →
      nonNegative (run seedBooks calls)) := by
  refine ⟨?_, ?_, ?_⟩
  · intro books query hnn
    have hb : boundedBy maxInt books := fun b h => ⟨hnn b h, b.Quantity.hi⟩
    exact fun b h => (checkoutBook_boundedBy hb query b h).1
  · intro books query hnn hlt
    cases query with
    | none => exact hnn
    | some id =>
      cases hres : getBookById books id with
      | error e =>
        have h1 : (returnBook books (some id)).1 = books := by
          simp only [returnBook, hres]
        rw [h1]; exact hnn
      | ok i =>
        rw [returnBook_found hres]
        have h0 := hnn _ (get_mem_books books i)
        have hlt2 := hlt id i rfl hres
        have hval := GoInt.add_one_val (books.get i).Quantity
        rw [if_neg (by omega)] at hval
        apply forall_mem_setQuantity i _ hnn
        show 0 ≤ ((books.get i).Quantity.add (GoInt.ofInt 1)).val
        rw [hval]
        omega
  · intro calls hlen
    have hseed : boundedBy 6 seedBooks := by decide
    have := run_boundedBy calls seedBooks 6 hseed (by unfold maxInt; omega)
    exact fun b h => (this b h).1

theorem nonNegative_preserved_below_maxInt_witness :
    (nonNegative seedBooks ∧ nonNegative (checkoutBook seedBooks (some "1")).1) ∧
    ((∀ (id : String) (i : Fin seedBooks.length), some "2" = some id →
        getBookById seedBooks id = .ok i → (seedBooks.get i).Quantity.val < maxInt) ∧
      nonNegative (returnBook seedBooks (some "2")).1) ∧
    nonNegative (run seedBooks
      [Call.checkout (some "1"), Call.giveBack (some "2"), Call.giveBack none]) :=
  ⟨⟨by decide, nonNegative_preserved_below_maxInt.1 seedBooks (some "1") (by decide)⟩,
   ⟨fun _ i _ _ =>
      (by decide : ∀ k : Fin seedBooks.length, (seedBooks.get k).Quantity.val < maxInt) i,
    nonNegative_preserved_below_maxInt.2.1 seedBooks (some "2") (by decide)
      (fun _ i _ _ =>
      (by decide : ∀ k : Fin seedBooks.length, (seedBooks.get k).Quantity.val < maxInt) i)⟩,
   nonNegative_preserved_below_maxInt.2.2 _ (by decide)⟩

end GoApi
